import Mathlib

/-!
# Verification of the sitless reminder core

Shallow embedding of the sitless browser extension's core:
settings normalization (`normalizeSettings`), the reminder scheduler
(`syncAlarm`), the notification issuer (`showNotification`) and the
uploaded-image icon pipeline (`fileToSquareDataUrl`).

JavaScript numbers are modelled as exact rationals extended with the
non-finite values `NaN`, `+Infinity`, `-Infinity`; JavaScript strings as
Lean `String`s (sequences of characters standing for code units).
-/

namespace Sitless

/-- A JavaScript number: a finite value (modelled as an exact rational)
or one of the non-finite values. -/
inductive JSNum where
  | finite (q : ℚ)
  | nan
  | posInf
  | negInf
  deriving DecidableEq, Repr

/-- `Number.isFinite`. -/
def JSNum.isFinite : JSNum → Bool
  | .finite _ => true
  | _ => false

/-- The characters stripped by JavaScript `String.prototype.trim`
(ASCII whitespace, NBSP, BOM and the Unicode line separators; other
`Zs` code points are omitted from the model). -/
def isJsWhitespace (c : Char) : Bool :=
  c = ' ' || c = '\t' || c = '\n' || c = '\r' ||
  c = '\x0b' || c = '\x0c' || c = Char.ofNat 0xA0 ||
  c = Char.ofNat 0xFEFF || c = Char.ofNat 0x2028 || c = Char.ofNat 0x2029

/-- Strip leading whitespace from a character list. -/
def ltrim (l : List Char) : List Char :=
  l.dropWhile isJsWhitespace

/-- Strip trailing whitespace from a character list. -/
def rtrim (l : List Char) : List Char :=
  (ltrim l.reverse).reverse

/-- Strip whitespace from both ends. -/
def trimChars (l : List Char) : List Char :=
  rtrim (ltrim l)

/-- JavaScript `s.trim()`. -/
def jsTrim (s : String) : String :=
  ⟨trimChars s.data⟩

/-- JavaScript `s.slice(0, n)` for a non-negative `n`. -/
def jsSlice (n : ℕ) (s : String) : String :=
  ⟨s.data.take n⟩

/-- JavaScript `s.startsWith(p)`. -/
def jsStartsWith (p s : String) : Bool :=
  s.data.take p.data.length = p.data

/-- JavaScript `s.length`. -/
def jsLength (s : String) : ℕ :=
  s.data.length

/-- Decimal digit test used by the string-to-number parser. -/
def isDigitChar (c : Char) : Bool :=
  '0' ≤ c && c ≤ '9'

/-- Value of a decimal digit. -/
def digitVal (c : Char) : ℕ :=
  c.toNat - '0'.toNat

/-- Accumulate a list of decimal digits into a natural number. -/
def digitsToNat (l : List Char) : ℕ :=
  l.foldl (fun acc c => 10 * acc + digitVal c) 0

/-- Parse the unsigned part of a JavaScript decimal numeric literal:
digits, an optional fraction, and an optional exponent.  Returns `none`
when the text is not such a literal.  (Hex/octal/binary literals are
not modelled.) -/
def parseUnsignedDecimal (l : List Char) : Option ℚ :=
  let intPart := l.takeWhile isDigitChar
  let rest := l.dropWhile isDigitChar
  let (fracPart, rest') :=
    match rest with
    | '.' :: r => (r.takeWhile isDigitChar, r.dropWhile isDigitChar)
    | _ => ([], rest)
  if intPart.isEmpty && fracPart.isEmpty then none
  else
    let mantissa : ℚ :=
      (digitsToNat intPart : ℚ) +
        (digitsToNat fracPart : ℚ) / ((10 : ℚ) ^ fracPart.length)
    match rest' with
    | [] => some mantissa
    | e :: r =>
      if e = 'e' || e = 'E' then
        let (sign, digits) :=
          match r with
          | '+' :: d => ((1 : ℤ), d)
          | '-' :: d => ((-1 : ℤ), d)
          | d => ((1 : ℤ), d)
        if digits.isEmpty || !(digits.all isDigitChar) then none
        else some (mantissa * (10 : ℚ) ^ (sign * (digitsToNat digits : ℤ)))
      else none

/-- JavaScript `Number(s)` for a string `s`: trim, empty means `0`,
`Infinity` forms, otherwise a signed decimal literal, otherwise `NaN`.
Finite values are exact rationals (double rounding is not modelled). -/
def strToNum (s : String) : JSNum :=
  let t := trimChars s.data
  if t = [] then .finite 0
  else
    let (sign, body) :=
      match t with
      | '+' :: r => ((1 : ℚ), r)
      | '-' :: r => ((-1 : ℚ), r)
      | r => ((1 : ℚ), r)
    if body = "Infinity".data then
      if sign = 1 then .posInf else .negInf
    else
      match parseUnsignedDecimal body with
      | some q => .finite (sign * q)
      | none => .nan

/-- A JavaScript value as far as `normalizeSettings` can observe one:
`undefined` (also standing for an absent property), `null`, a boolean,
a number, or a string. -/
inductive JSValue where
  | undef
  | nullV
  | boolV (b : Bool)
  | numV (n : JSNum)
  | strV (s : String)
  deriving DecidableEq, Repr

/-- JavaScript `Number(v)` coercion. -/
def toNumber : JSValue → JSNum
  | .undef => .nan
  | .nullV => .finite 0
  | .boolV b => .finite (if b then 1 else 0)
  | .numV n => n
  | .strV s => strToNum s

/-- The six properties that `normalizeSettings` reads off its input,
each a raw JavaScript value (`undef` when absent), plus any remaining
properties of the object, which the function never reads. -/
structure RawSettings where
  enabled : JSValue
  intervalMinutes : JSValue
  notificationTitle : JSValue
  notificationMessage : JSValue
  notificationDisplaySeconds : JSValue
  notificationIconDataUrl : JSValue
  extra : List (String × JSValue)
  deriving DecidableEq, Repr

/-- An arbitrary `unknown` input to `normalizeSettings`: `null`,
`undefined`, a primitive (whose property reads all yield `undefined`),
or an object. -/
inductive RawInput where
  | nullI
  | undefinedI
  | boolI (b : Bool)
  | numI (n : JSNum)
  | strI (s : String)
  | objI (r : RawSettings)
  deriving DecidableEq, Repr

/-- The record with every property absent: what `input ?? {}` followed
by property access yields for `null`, `undefined`, `{}`, and every
primitive. -/
def emptyRaw : RawSettings :=
  ⟨.undef, .undef, .undef, .undef, .undef, .undef, []⟩

/-- Property access on `input ?? {}`. -/
def fieldsOf : RawInput → RawSettings
  | .objI r => r
  | _ => emptyRaw

/-- The canonical settings record produced by `normalizeSettings`. -/
structure ReminderSettings where
  enabled : Bool
  intervalMinutes : ℚ
  notificationTitle : String
  notificationMessage : String
  notificationDisplaySeconds : ℚ
  notificationIconDataUrl : String
  deriving DecidableEq, Repr

def MIN_INTERVAL_MINUTES : ℚ := 1 / 10
def MAX_INTERVAL_MINUTES : ℚ := 180
def MAX_ICON_DATA_URL_LENGTH : ℕ := 2000000

/-- `defaultSettings` from the background script. -/
def defaultSettings : ReminderSettings :=
  { enabled := true
    intervalMinutes := 45
    notificationTitle := ""
    notificationMessage := ""
    notificationDisplaySeconds := 30
    notificationIconDataUrl := "" }

/-- JavaScript `Math.round` on a finite value: round half toward
positive infinity. -/
def jsRound (q : ℚ) : ℤ :=
  ⌊q + 1 / 2⌋

/-- JavaScript `Math.min` on finite values. -/
def jsMin (a b : ℚ) : ℚ :=
  if a ≤ b then a else b

/-- JavaScript `Math.max` on finite values. -/
def jsMax (a b : ℚ) : ℚ :=
  if b ≤ a then a else b

/-- JavaScript `Math.max(lo, Math.min(hi, x))`. -/
def clampQ (lo hi x : ℚ) : ℚ :=
  jsMax lo (jsMin hi x)

/-- The `safeInterval` computation of `normalizeSettings`:
`Number.isFinite(interval) ? Math.max(MIN, Math.min(MAX,
Math.round(interval * 10) / 10)) : defaultSettings.intervalMinutes`. -/
def safeIntervalOf (interval : JSNum) : ℚ :=
  match interval with
  | .finite q =>
      clampQ MIN_INTERVAL_MINUTES MAX_INTERVAL_MINUTES
        ((jsRound (q * 10) : ℚ) / 10)
  | _ => defaultSettings.intervalMinutes

/-- The `safeDisplaySeconds` computation of `normalizeSettings`. -/
def safeDisplaySecondsOf (displaySeconds : JSNum) : ℚ :=
  match displaySeconds with
  | .finite q => clampQ 1 300 (jsRound q : ℚ)
  | _ => defaultSettings.notificationDisplaySeconds

/-- The `safeTitle` computation: trim then cap at 80 characters for
strings, the default otherwise. -/
def safeTitleOf (v : JSValue) : String :=
  match v with
  | .strV s => jsSlice 80 (jsTrim s)
  | _ => defaultSettings.notificationTitle

/-- The `safeMessage` computation: trim then cap at 200 characters. -/
def safeMessageOf (v : JSValue) : String :=
  match v with
  | .strV s => jsSlice 200 (jsTrim s)
  | _ => defaultSettings.notificationMessage

/-- The `iconRaw` computation: trim for strings, default otherwise. -/
def iconRawOf (v : JSValue) : String :=
  match v with
  | .strV s => jsTrim s
  | _ => defaultSettings.notificationIconDataUrl

/-- The `safeIcon` computation: keep `iconRaw` only when it starts
with the image-data-URI prefix and fits the length cap. -/
def safeIconOf (v : JSValue) : String :=
  let iconRaw := iconRawOf v
  if jsStartsWith "data:image/" iconRaw &&
      jsLength iconRaw ≤ MAX_ICON_DATA_URL_LENGTH then
    iconRaw
  else ""

/-- The `enabled` computation: keep booleans, default otherwise. -/
def enabledOf (v : JSValue) : Bool :=
  match v with
  | .boolV b => b
  | _ => defaultSettings.enabled

/-- `normalizeSettings` from the background script, assembled from the
per-field computations above exactly as in the source. -/
def normalizeSettings (input : RawInput) : ReminderSettings :=
  let raw := fieldsOf input
  { enabled := enabledOf raw.enabled
    intervalMinutes := safeIntervalOf (toNumber raw.intervalMinutes)
    notificationTitle := safeTitleOf raw.notificationTitle
    notificationMessage := safeMessageOf raw.notificationMessage
    notificationDisplaySeconds :=
      safeDisplaySecondsOf (toNumber raw.notificationDisplaySeconds)
    notificationIconDataUrl := safeIconOf raw.notificationIconDataUrl }

/-- Re-inject a normalized record as a raw object, as happens when the
output of `normalizeSettings` is persisted and read back. -/
def toRaw (s : ReminderSettings) : RawSettings :=
  { enabled := .boolV s.enabled
    intervalMinutes := .numV (.finite s.intervalMinutes)
    notificationTitle := .strV s.notificationTitle
    notificationMessage := .strV s.notificationMessage
    notificationDisplaySeconds := .numV (.finite s.notificationDisplaySeconds)
    notificationIconDataUrl := .strV s.notificationIconDataUrl
    extra := [] }

/-- The normalized record viewed as a raw input. -/
def toRawInput (s : ReminderSettings) : RawInput :=
  .objI (toRaw s)

/-! ## Reminder scheduler (`syncAlarm`) -/

/-- The two timer slots the background script can hold: the coarse
platform alarm (`browser.alarms`, with its delay and period in
minutes) and the fine software timer (`setTimeout`, period in
milliseconds). -/
structure TimerState where
  coarseAlarm : Option (ℚ × ℚ)
  fineTimer : Option ℚ
  deriving DecidableEq, Repr

/-- The timer operations `syncAlarm` performs, in order. -/
inductive TimerAction where
  | clearCoarse
  | clearFine
  | armCoarse (delayMin periodMin : ℚ)
  | armFine (periodMs : ℚ)
  deriving DecidableEq, Repr

def TimerAction.isClear : TimerAction → Bool
  | .clearCoarse | .clearFine => true
  | _ => false

def TimerAction.isArm : TimerAction → Bool
  | .armCoarse _ _ | .armFine _ => true
  | _ => false

/-- Effect of one timer operation on the timer slots. -/
def applyAction (ts : TimerState) : TimerAction → TimerState
  | .clearCoarse => { ts with coarseAlarm := none }
  | .clearFine => { ts with fineTimer := none }
  | .armCoarse d p => { ts with coarseAlarm := some (d, p) }
  | .armFine ms => { ts with fineTimer := some ms }

def applyActions (ts : TimerState) (l : List TimerAction) : TimerState :=
  l.foldl applyAction ts

/-- The sequence of timer operations `syncAlarm` performs, given the
loaded settings and the current timer state: always
`browser.alarms.clear`, then `clearTimeout` when the fine timer is
set, then at most one arming operation. -/
def syncAlarmTrace (s : ReminderSettings) (ts : TimerState) :
    List TimerAction :=
  [TimerAction.clearCoarse]
    ++ (if ts.fineTimer.isSome then [TimerAction.clearFine] else [])
    ++ (if s.enabled = false then []
        else if s.intervalMinutes < 1 then
          [TimerAction.armFine (s.intervalMinutes * 60000)]
        else
          [TimerAction.armCoarse s.intervalMinutes s.intervalMinutes])

/-- `syncAlarm` from the background script as a transformer of the
timer state (settings loading and persistence are the caller's
environment). -/
def syncAlarm (s : ReminderSettings) (ts : TimerState) : TimerState :=
  applyActions ts (syncAlarmTrace s ts)

/-- Number of armed timers. -/
def armedCount (ts : TimerState) : ℕ :=
  (if ts.coarseAlarm.isSome then 1 else 0) +
    (if ts.fineTimer.isSome then 1 else 0)

/-! ## Notification issuer (`showNotification`) -/

/-- Outcomes of the platform calls `showNotification` performs, fixed
by the environment: whether the permission check answers `true`, and
whether each `browser.notifications.create` call (with the custom
icon, with the bundled default icon) resolves or rejects. -/
structure NotifEnv where
  permission : Bool
  customCreateOk : Bool
  defaultCreateOk : Bool
  deriving DecidableEq, Repr

/-- Which icon a creation attempt used. -/
inductive IconChoice where
  | customIcon
  | defaultIcon
  deriving DecidableEq, Repr

/-- Observable outcome of one `showNotification` call: the returned
boolean (`none` when the call ends with a rejected promise, i.e. an
exception propagates), the creation attempts made in order, how many
notifications exist afterwards, and whether the auto-dismiss
`setTimeout` was scheduled. -/
structure ShowTrace where
  result : Option Bool
  attempts : List IconChoice
  createdCount : ℕ
  dismissScheduled : Bool
  deriving DecidableEq, Repr

/-- `showNotification` from the background script: permission gate,
guarded creation attempt with the custom icon when one is persisted,
unguarded creation with the bundled default icon when no notification
was created yet, then the auto-dismiss timer. -/
def showNotification (env : NotifEnv) (s : ReminderSettings) :
    ShowTrace :=
  if env.permission = false then
    { result := some false, attempts := [], createdCount := 0,
      dismissScheduled := false }
  else
    let tryCustomIcon := s.notificationIconDataUrl
    if tryCustomIcon ≠ "" then
      if env.customCreateOk then
        { result := some true, attempts := [.customIcon],
          createdCount := 1, dismissScheduled := true }
      else if env.defaultCreateOk then
        { result := some true, attempts := [.customIcon, .defaultIcon],
          createdCount := 1, dismissScheduled := true }
      else
        { result := none, attempts := [.customIcon, .defaultIcon],
          createdCount := 0, dismissScheduled := false }
    else
      if env.defaultCreateOk then
        { result := some true, attempts := [.defaultIcon],
          createdCount := 1, dismissScheduled := true }
      else
        { result := none, attempts := [.defaultIcon],
          createdCount := 0, dismissScheduled := false }

/-! ## Uploaded-image icon pipeline (`fileToSquareDataUrl`) -/

/-- The platform primitives `fileToSquareDataUrl` depends on: whether
the image decodes (and its pixel size), whether a 2d canvas context is
available, and the three data URLs the canvas encoder would produce. -/
structure CanvasEnv where
  imageLoad : Option (ℕ × ℕ)
  ctxAvailable : Bool
  pngDataUrl : String
  jpeg90DataUrl : String
  jpeg75DataUrl : String
  deriving DecidableEq, Repr

/-- The centered square crop `fileToSquareDataUrl` computes:
`(sourceSize, sx, sy)`. -/
def squareCrop (width height : ℕ) : ℕ × ℕ × ℕ :=
  let sourceSize := min width height
  (sourceSize, (width - sourceSize) / 2, (height - sourceSize) / 2)

/-- `fileToSquareDataUrl` from the popup: reject on image-load
failure, empty string when no context, otherwise the three-tier
encoding fallback (PNG, then JPEG at 0.9 when PNG exceeds the cap,
then JPEG at 0.75 unconditionally). -/
def fileToSquareDataUrl (env : CanvasEnv) : Except String String :=
  match env.imageLoad with
  | none => .error "image-load-failed"
  | some _ =>
    if env.ctxAvailable = false then .ok ""
    else if jsLength env.pngDataUrl ≤ MAX_ICON_DATA_URL_LENGTH then
      .ok env.pngDataUrl
    else if jsLength env.jpeg90DataUrl ≤ MAX_ICON_DATA_URL_LENGTH then
      .ok env.jpeg90DataUrl
    else .ok env.jpeg75DataUrl

/-! ## Auxiliary definitions used in the statements -/

/-- Whether a character list ends in a whitespace character. -/
def lastIsWs (l : List Char) : Bool :=
  match l.reverse.head? with
  | some c => isJsWhitespace c
  | none => false

/-- A string one character over the icon length cap, used to exercise
the over-cap branches of the icon pipeline. -/
def overCapString : String :=
  ⟨List.replicate (MAX_ICON_DATA_URL_LENGTH + 1) 'a'⟩

/-- 79 `a`s followed by `" b"`: trimmed, 81 characters long, and the
80-character cap cuts it right after the space. -/
def capCutTitle : String :=
  ⟨List.replicate 79 'a' ++ [' ', 'b']⟩

/-- An object whose title is `capCutTitle`. -/
def capCutInput : RawInput :=
  .objI { emptyRaw with notificationTitle := .strV capCutTitle }

/-- A benign object input: padded title, in-range fractional interval. -/
def niceInput : RawInput :=
  .objI { emptyRaw with
    notificationTitle := .strV " hi ",
    intervalMinutes := .numV (.finite (37 / 10)) }

/-- An object carrying just an `intervalMinutes` value. -/
def intervalInput (n : JSNum) : RawInput :=
  .objI { emptyRaw with intervalMinutes := .numV n }

/-- An object carrying just a `notificationDisplaySeconds` value. -/
def displayInput (n : JSNum) : RawInput :=
  .objI { emptyRaw with notificationDisplaySeconds := .numV n }

/-- An object carrying just a string `notificationIconDataUrl`. -/
def iconInput (s : String) : RawInput :=
  .objI { emptyRaw with notificationIconDataUrl := .strV s }

/-- An object carrying a string `intervalMinutes`. -/
def intervalStrInput (s : String) : RawInput :=
  .objI { emptyRaw with intervalMinutes := .strV s }

/-- Normalized settings carrying a persisted custom icon. -/
def iconSettings : ReminderSettings :=
  { defaultSettings with
    notificationIconDataUrl := "data:image/png;base64,AA" }

/-! ## Lemmas about trimming and capping -/

/-- A list has no leading character satisfying `p`. -/
def NoLead (p : Char → Bool) (l : List Char) : Prop :=
  ∀ c, l.head? = some c → p c = false

theorem dropWhile_head_false (p : Char → Bool) :
    ∀ l : List Char, NoLead p (l.dropWhile p) := by
  intro l
  induction l with
  | nil => intro c hc; simp [List.dropWhile] at hc
  | cons a t ih =>
    intro c hc
    by_cases hpa : p a = true
    · rw [List.dropWhile_cons, if_pos hpa] at hc
      exact ih c hc
    · rw [List.dropWhile_cons, if_neg hpa] at hc
      simp only [List.head?_cons, Option.some.injEq] at hc
      simpa [hc] using hpa

theorem dropWhile_eq_self_of_noLead {p : Char → Bool} {l : List Char}
    (h : NoLead p l) : l.dropWhile p = l := by
  cases l with
  | nil => rfl
  | cons a t =>
    rw [List.dropWhile_cons, if_neg]
    simpa using h a rfl

theorem exists_append_dropWhile (p : Char → Bool) :
    ∀ l : List Char, ∃ u, l = u ++ l.dropWhile p := by
  intro l
  induction l with
  | nil => exact ⟨[], rfl⟩
  | cons a t ih =>
    by_cases hpa : p a = true
    · obtain ⟨u, hu⟩ := ih
      exact ⟨a :: u, by rw [List.dropWhile_cons, if_pos hpa]; simpa using hu⟩
    · exact ⟨[], by rw [List.dropWhile_cons, if_neg hpa]; rfl⟩

theorem noLead_ltrim (l : List Char) : NoLead isJsWhitespace (ltrim l) :=
  dropWhile_head_false isJsWhitespace l

theorem ltrim_eq_self_of_noLead {l : List Char}
    (h : NoLead isJsWhitespace l) : ltrim l = l :=
  dropWhile_eq_self_of_noLead h

theorem ltrim_ltrim (l : List Char) : ltrim (ltrim l) = ltrim l :=
  ltrim_eq_self_of_noLead (noLead_ltrim l)

theorem exists_rtrim_append (l : List Char) : ∃ t, l = rtrim l ++ t := by
  obtain ⟨u, hu⟩ := exists_append_dropWhile isJsWhitespace l.reverse
  refine ⟨u.reverse, ?_⟩
  have := congrArg List.reverse hu
  simpa [rtrim, ltrim, List.reverse_append] using this

theorem length_rtrim_le (l : List Char) : (rtrim l).length ≤ l.length := by
  obtain ⟨t, ht⟩ := exists_rtrim_append l
  have hlen := congrArg List.length ht
  rw [List.length_append] at hlen
  omega

theorem rtrim_head? (l : List Char) :
    rtrim l = [] ∨ (rtrim l).head? = l.head? := by
  obtain ⟨t, ht⟩ := exists_rtrim_append l
  cases hr : rtrim l with
  | nil => exact Or.inl rfl
  | cons a u =>
    right
    rw [ht, hr]
    simp

theorem noLead_rtrim {l : List Char} (h : NoLead isJsWhitespace l) :
    NoLead isJsWhitespace (rtrim l) := by
  intro c hc
  rcases rtrim_head? l with hnil | hhd
  · rw [hnil] at hc; simp at hc
  · exact h c (hhd ▸ hc)

theorem rtrim_rtrim (l : List Char) : rtrim (rtrim l) = rtrim l := by
  unfold rtrim
  rw [List.reverse_reverse, ltrim_ltrim]

theorem noLead_take {l : List Char} (n : ℕ)
    (h : NoLead isJsWhitespace l) : NoLead isJsWhitespace (l.take n) := by
  intro c hc
  cases l with
  | nil => simp at hc
  | cons a t =>
    cases n with
    | zero => simp at hc
    | succ m =>
      simp only [List.take_succ_cons, List.head?_cons,
        Option.some.injEq] at hc
      exact h c (by simp [hc])

theorem rtrim_eq_self_of_lastIsWs {l : List Char}
    (h : lastIsWs l = false) : rtrim l = l := by
  unfold rtrim ltrim
  rw [dropWhile_eq_self_of_noLead, List.reverse_reverse]
  intro c hc
  unfold lastIsWs at h
  rw [hc] at h
  exact h

/-- `capAt n l`: trim then cap at `n` characters, the per-string
normalization step. -/
def capAt (n : ℕ) (l : List Char) : List Char :=
  (trimChars l).take n

theorem noLead_capAt (n : ℕ) (l : List Char) :
    NoLead isJsWhitespace (capAt n l) :=
  noLead_take n (noLead_rtrim (noLead_ltrim l))

theorem length_capAt_le (n : ℕ) (l : List Char) :
    (capAt n l).length ≤ n := by
  simp [capAt, List.length_take]

theorem capAt_of_noLead {n : ℕ} {l : List Char}
    (h : NoLead isJsWhitespace l) (hlen : l.length ≤ n) :
    capAt n l = rtrim l := by
  unfold capAt trimChars
  rw [ltrim_eq_self_of_noLead h,
    List.take_of_length_le (le_trans (length_rtrim_le l) hlen)]

theorem capAt_capAt (n : ℕ) (l : List Char) :
    capAt n (capAt n l) = rtrim (capAt n l) :=
  capAt_of_noLead (noLead_capAt n l) (length_capAt_le n l)

theorem capAt_three (n : ℕ) (l : List Char) :
    capAt n (capAt n (capAt n l)) = capAt n (capAt n l) := by
  rw [capAt_capAt n l,
    capAt_of_noLead (noLead_rtrim (noLead_capAt n l))
      (le_trans (length_rtrim_le _) (length_capAt_le n l)),
    rtrim_rtrim, ← capAt_capAt n l]

theorem capAt_fixed_of_lastIsWs {n : ℕ} {l : List Char}
    (h : lastIsWs (capAt n l) = false) :
    capAt n (capAt n l) = capAt n l := by
  rw [capAt_capAt n l, rtrim_eq_self_of_lastIsWs h]

theorem trimChars_trimChars (l : List Char) :
    trimChars (trimChars l) = trimChars l := by
  unfold trimChars
  rw [ltrim_eq_self_of_noLead (noLead_rtrim (noLead_ltrim l)), rtrim_rtrim]

theorem jsTrim_jsTrim (s : String) : jsTrim (jsTrim s) = jsTrim s := by
  unfold jsTrim
  exact congrArg String.mk (trimChars_trimChars s.data)

/-! ## Lemmas about the numeric clamps -/

theorem jsRound_intCast (m : ℤ) : jsRound (m : ℚ) = m := by
  unfold jsRound
  rw [Int.floor_int_add]
  norm_num

theorem jsMin_eq (a b : ℚ) : jsMin a b = min a b := by
  unfold jsMin
  rw [min_def]

theorem jsMax_eq (a b : ℚ) : jsMax a b = max a b := by
  unfold jsMax
  rcases le_total b a with h | h
  · rw [if_pos h, max_eq_left h]
  · by_cases h' : b ≤ a
    · rw [if_pos h', max_eq_left h']
    · rw [if_neg h', max_eq_right h]

theorem clampQ_eq (lo hi x : ℚ) : clampQ lo hi x = max lo (min hi x) := by
  unfold clampQ
  rw [jsMin_eq, jsMax_eq]

theorem clampQ_interval_shape (k : ℤ) :
    clampQ MIN_INTERVAL_MINUTES MAX_INTERVAL_MINUTES ((k : ℚ) / 10) =
      ((max 1 (min 1800 k) : ℤ) : ℚ) / 10 := by
  rw [clampQ_eq]
  unfold MIN_INTERVAL_MINUTES MAX_INTERVAL_MINUTES
  push_cast
  rw [show (180 : ℚ) = 1800 / 10 by norm_num,
    min_div_div_right (by norm_num : (0:ℚ) ≤ 10),
    max_div_div_right (by norm_num : (0:ℚ) ≤ 10)]

theorem safeIntervalOf_shape (n : JSNum) :
    ∃ m : ℤ, 1 ≤ m ∧ m ≤ 1800 ∧ safeIntervalOf n = (m : ℚ) / 10 := by
  cases n with
  | finite q =>
    refine ⟨max 1 (min 1800 (jsRound (q * 10))), le_max_left _ _,
      max_le (by norm_num) (min_le_left _ _), ?_⟩
    exact clampQ_interval_shape (jsRound (q * 10))
  | nan => exact ⟨450, by norm_num, by norm_num, by norm_num [safeIntervalOf, defaultSettings]⟩
  | posInf => exact ⟨450, by norm_num, by norm_num, by norm_num [safeIntervalOf, defaultSettings]⟩
  | negInf => exact ⟨450, by norm_num, by norm_num, by norm_num [safeIntervalOf, defaultSettings]⟩

theorem safeIntervalOf_fix (n : JSNum) :
    safeIntervalOf (.finite (safeIntervalOf n)) = safeIntervalOf n := by
  obtain ⟨m, h1, h2, hv⟩ := safeIntervalOf_shape n
  rw [hv]
  show clampQ MIN_INTERVAL_MINUTES MAX_INTERVAL_MINUTES
      ((jsRound ((m : ℚ) / 10 * 10) : ℚ) / 10) = (m : ℚ) / 10
  rw [div_mul_cancel₀ (m : ℚ) (by norm_num : (10:ℚ) ≠ 0), jsRound_intCast,
    clampQ_interval_shape, min_eq_right h2, max_eq_right h1]

theorem clampQ_display_shape (k : ℤ) :
    clampQ 1 300 (k : ℚ) = ((max 1 (min 300 k) : ℤ) : ℚ) := by
  rw [clampQ_eq]
  push_cast
  rfl

theorem safeDisplaySecondsOf_shape (n : JSNum) :
    ∃ m : ℤ, 1 ≤ m ∧ m ≤ 300 ∧ safeDisplaySecondsOf n = (m : ℚ) := by
  cases n with
  | finite q =>
    refine ⟨max 1 (min 300 (jsRound q)), le_max_left _ _,
      max_le (by norm_num) (min_le_left _ _), ?_⟩
    exact clampQ_display_shape (jsRound q)
  | nan => exact ⟨30, by norm_num, by norm_num, by norm_num [safeDisplaySecondsOf, defaultSettings]⟩
  | posInf => exact ⟨30, by norm_num, by norm_num, by norm_num [safeDisplaySecondsOf, defaultSettings]⟩
  | negInf => exact ⟨30, by norm_num, by norm_num, by norm_num [safeDisplaySecondsOf, defaultSettings]⟩

theorem safeDisplaySecondsOf_fix (n : JSNum) :
    safeDisplaySecondsOf (.finite (safeDisplaySecondsOf n)) =
      safeDisplaySecondsOf n := by
  obtain ⟨m, h1, h2, hv⟩ := safeDisplaySecondsOf_shape n
  rw [hv]
  show clampQ 1 300 ((jsRound (m : ℚ) : ℤ) : ℚ) = (m : ℚ)
  rw [jsRound_intCast, clampQ_display_shape, min_eq_right h2,
    max_eq_right h1]

/-! ## Fixpoint lemmas for the string fields -/

theorem safeTitleOf_strV (l : List Char) :
    safeTitleOf (.strV ⟨l⟩) = ⟨capAt 80 l⟩ := rfl

theorem safeMessageOf_strV (l : List Char) :
    safeMessageOf (.strV ⟨l⟩) = ⟨capAt 200 l⟩ := rfl

theorem safeTitleOf_shape (v : JSValue) :
    ∃ l, safeTitleOf v = ⟨capAt 80 l⟩ := by
  cases v with
  | strV s => exact ⟨s.data, rfl⟩
  | undef => exact ⟨[], rfl⟩
  | nullV => exact ⟨[], rfl⟩
  | boolV b => exact ⟨[], rfl⟩
  | numV n => exact ⟨[], rfl⟩

theorem safeMessageOf_shape (v : JSValue) :
    ∃ l, safeMessageOf v = ⟨capAt 200 l⟩ := by
  cases v with
  | strV s => exact ⟨s.data, rfl⟩
  | undef => exact ⟨[], rfl⟩
  | nullV => exact ⟨[], rfl⟩
  | boolV b => exact ⟨[], rfl⟩
  | numV n => exact ⟨[], rfl⟩

theorem safeIconOf_fix (v : JSValue) :
    safeIconOf (.strV (safeIconOf v)) = safeIconOf v := by
  by_cases hc : (jsStartsWith "data:image/" (iconRawOf v) &&
      decide (jsLength (iconRawOf v) ≤ MAX_ICON_DATA_URL_LENGTH)) = true
  · have hv : safeIconOf v = iconRawOf v := by
      unfold safeIconOf
      rw [if_pos hc]
    rw [hv]
    have htrim : iconRawOf (.strV (iconRawOf v)) = iconRawOf v := by
      cases v with
      | strV s => exact jsTrim_jsTrim s
      | undef => rfl
      | nullV => rfl
      | boolV b => rfl
      | numV n => rfl
    unfold safeIconOf
    rw [htrim, if_pos hc]
  · have hv : safeIconOf v = "" := by
      unfold safeIconOf
      rw [if_neg hc]
    rw [hv]
    rfl

/-! ## Projection equations for `normalizeSettings` -/

theorem normalizeSettings_enabled (x : RawInput) :
    (normalizeSettings x).enabled = enabledOf (fieldsOf x).enabled := rfl

theorem normalizeSettings_interval (x : RawInput) :
    (normalizeSettings x).intervalMinutes =
      safeIntervalOf (toNumber (fieldsOf x).intervalMinutes) := rfl

theorem normalizeSettings_title (x : RawInput) :
    (normalizeSettings x).notificationTitle =
      safeTitleOf (fieldsOf x).notificationTitle := rfl

theorem normalizeSettings_message (x : RawInput) :
    (normalizeSettings x).notificationMessage =
      safeMessageOf (fieldsOf x).notificationMessage := rfl

theorem normalizeSettings_display (x : RawInput) :
    (normalizeSettings x).notificationDisplaySeconds =
      safeDisplaySecondsOf (toNumber (fieldsOf x).notificationDisplaySeconds) := rfl

theorem normalizeSettings_icon (x : RawInput) :
    (normalizeSettings x).notificationIconDataUrl =
      safeIconOf (fieldsOf x).notificationIconDataUrl := rfl

/-- Reading the persisted output of `normalizeSettings` back in. -/
theorem normalize_toRawInput (s : ReminderSettings) :
    normalizeSettings (toRawInput s) =
      { enabled := s.enabled
        intervalMinutes := safeIntervalOf (.finite s.intervalMinutes)
        notificationTitle := safeTitleOf (.strV s.notificationTitle)
        notificationMessage := safeMessageOf (.strV s.notificationMessage)
        notificationDisplaySeconds :=
          safeDisplaySecondsOf (.finite s.notificationDisplaySeconds)
        notificationIconDataUrl :=
          safeIconOf (.strV s.notificationIconDataUrl) } := rfl

/-! ## C1: totality and idempotence of `normalizeSettings` -/

/-- C1 counterexample: `normalize` is not idempotent on the title
`capCutTitle` (79 `a`s then `" b"`): the 80-character cap cuts the
trimmed title right after a space, and the second normalization trims
that trailing space away again. -/
theorem normalize_idempotent_counterexample :
    normalizeSettings (toRawInput (normalizeSettings capCutInput)) ≠
      normalizeSettings capCutInput := by
  intro h
  exact absurd (congrArg ReminderSettings.notificationTitle h) (by decide)

/-- C1 (amended): `normalizeSettings` is total by construction, and
normalization of its own output is the identity except on the
whitespace left at the end of a capped title or message: a second pass
`normalize(normalize(x))` is always a fixpoint of `normalize`, and
`normalize(normalize(x)) = normalize(x)` holds whenever the title and
message of `normalize(x)` do not end in whitespace. -/
theorem normalize_idempotent_amended (x : RawInput) :
    normalizeSettings (toRawInput (normalizeSettings
        (toRawInput (normalizeSettings x)))) =
      normalizeSettings (toRawInput (normalizeSettings x)) ∧
    (lastIsWs (normalizeSettings x).notificationTitle.data = false →
     lastIsWs (normalizeSettings x).notificationMessage.data = false →
     normalizeSettings (toRawInput (normalizeSettings x)) =
       normalizeSettings x) := by
  obtain ⟨lt, hlt⟩ := safeTitleOf_shape (fieldsOf x).notificationTitle
  obtain ⟨lm, hlm⟩ := safeMessageOf_shape (fieldsOf x).notificationMessage
  have hT : (normalizeSettings x).notificationTitle = ⟨capAt 80 lt⟩ :=
    (normalizeSettings_title x).trans hlt
  have hM : (normalizeSettings x).notificationMessage = ⟨capAt 200 lm⟩ :=
    (normalizeSettings_message x).trans hlm
  constructor
  · rw [normalize_toRawInput (normalizeSettings x), normalize_toRawInput]
    dsimp only
    rw [ReminderSettings.mk.injEq]
    refine ⟨rfl, safeIntervalOf_fix _, ?_, ?_, safeDisplaySecondsOf_fix _,
      safeIconOf_fix _⟩
    · rw [hT]
      simp only [safeTitleOf_strV]
      exact congrArg String.mk (capAt_three 80 lt)
    · rw [hM]
      simp only [safeMessageOf_strV]
      exact congrArg String.mk (capAt_three 200 lm)
  · intro h1 h2
    rw [hT] at h1
    rw [hM] at h2
    have h1' : lastIsWs (capAt 80 lt) = false := h1
    have h2' : lastIsWs (capAt 200 lm) = false := h2
    rw [normalize_toRawInput]
    conv_rhs => rw [show normalizeSettings x =
      ⟨(normalizeSettings x).enabled, (normalizeSettings x).intervalMinutes,
        (normalizeSettings x).notificationTitle,
        (normalizeSettings x).notificationMessage,
        (normalizeSettings x).notificationDisplaySeconds,
        (normalizeSettings x).notificationIconDataUrl⟩ from rfl]
    rw [ReminderSettings.mk.injEq]
    refine ⟨rfl, ?_, ?_, ?_, ?_, ?_⟩
    · rw [normalizeSettings_interval]
      exact safeIntervalOf_fix _
    · rw [hT, safeTitleOf_strV]
      exact congrArg String.mk (capAt_fixed_of_lastIsWs h1')
    · rw [hM, safeMessageOf_strV]
      exact congrArg String.mk (capAt_fixed_of_lastIsWs h2')
    · rw [normalizeSettings_display]
      exact safeDisplaySecondsOf_fix _
    · rw [normalizeSettings_icon]
      exact safeIconOf_fix _

/-- C1 witness: on a concrete input whose trimmed title survives the
cap intact, one normalization pass is already a fixpoint. -/
theorem normalize_idempotent_amended_witness :
    normalizeSettings (toRawInput (normalizeSettings niceInput)) =
      normalizeSettings niceInput :=
  (normalize_idempotent_amended niceInput).2 (by decide) (by decide)

/-! ## C10: defaults for null, undefined and the empty object -/

/-- C10: `normalize` on `null`, `undefined` or the empty object yields
exactly the default record, and any extra properties of an object
input are absent from the output (the result does not depend on
them). -/
theorem normalize_defaults :
    normalizeSettings .nullI =
      { enabled := true, intervalMinutes := 45, notificationTitle := "",
        notificationMessage := "", notificationDisplaySeconds := 30,
        notificationIconDataUrl := "" } ∧
    normalizeSettings .undefinedI = defaultSettings ∧
    (∀ e : List (String × JSValue),
      normalizeSettings (.objI { emptyRaw with extra := e }) =
        defaultSettings) := by
  refine ⟨rfl, rfl, fun e => rfl⟩

/-! ## C9: non-finite numeric coercions fall back to the defaults -/

/-- C9: when `Number(raw.intervalMinutes)` (resp.
`Number(raw.notificationDisplaySeconds)`) is not finite — `NaN`,
`+Infinity` or `-Infinity` — the normalized value is the default `45`
(resp. `30`), not a clamped boundary. -/
theorem nonfinite_coercion_defaults (x : RawInput) :
    (JSNum.isFinite (toNumber (fieldsOf x).intervalMinutes) = false →
      (normalizeSettings x).intervalMinutes = 45) ∧
    (JSNum.isFinite (toNumber (fieldsOf x).notificationDisplaySeconds) = false →
      (normalizeSettings x).notificationDisplaySeconds = 30) := by
  constructor
  · intro h
    rw [normalizeSettings_interval]
    cases hn : toNumber (fieldsOf x).intervalMinutes with
    | finite q => rw [hn] at h; simp [JSNum.isFinite] at h
    | nan => rfl
    | posInf => rfl
    | negInf => rfl
  · intro h
    rw [normalizeSettings_display]
    cases hn : toNumber (fieldsOf x).notificationDisplaySeconds with
    | finite q => rw [hn] at h; simp [JSNum.isFinite] at h
    | nan => rfl
    | posInf => rfl
    | negInf => rfl

/-- C9 witness: `+Infinity` yields `45` (not the cap `180`), a
non-numeric string also yields `45`, and `NaN` display seconds yield
`30`. -/
theorem nonfinite_coercion_defaults_witness :
    (normalizeSettings (intervalInput .posInf)).intervalMinutes = 45 ∧
    (normalizeSettings (intervalStrInput "not a number")).intervalMinutes = 45 ∧
    (normalizeSettings (displayInput .nan)).notificationDisplaySeconds = 30 ∧
    (45 : ℚ) ≠ 180 :=
  ⟨(nonfinite_coercion_defaults (intervalInput .posInf)).1 (by decide),
   (nonfinite_coercion_defaults (intervalStrInput "not a number")).1 (by decide),
   (nonfinite_coercion_defaults (displayInput .nan)).2 (by decide),
   by norm_num⟩

/-! ## C2: interval clamping and rounding -/

/-- C2: when the interval coerces to a finite number the normalized
interval lies in `[0.1, 180]`, and when the input itself lies in
`[0.1, 180]` it is exactly the input rounded to one decimal place. -/
theorem interval_clamp_round (x : RawInput) (q : ℚ)
    (h : toNumber (fieldsOf x).intervalMinutes = .finite q) :
    (MIN_INTERVAL_MINUTES ≤ (normalizeSettings x).intervalMinutes ∧
      (normalizeSettings x).intervalMinutes ≤ MAX_INTERVAL_MINUTES) ∧
    (MIN_INTERVAL_MINUTES ≤ q → q ≤ MAX_INTERVAL_MINUTES →
      (normalizeSettings x).intervalMinutes =
        (jsRound (q * 10) : ℚ) / 10) := by
  rw [normalizeSettings_interval, h]
  constructor
  · obtain ⟨m, h1, h2, hv⟩ := safeIntervalOf_shape (.finite q)
    rw [hv]
    unfold MIN_INTERVAL_MINUTES MAX_INTERVAL_MINUTES
    have hm1 : (1 : ℚ) ≤ (m : ℚ) := by exact_mod_cast h1
    have hm2 : (m : ℚ) ≤ 1800 := by exact_mod_cast h2
    constructor
    · linarith
    · linarith
  · intro hq1 hq2
    unfold MIN_INTERVAL_MINUTES at hq1
    unfold MAX_INTERVAL_MINUTES at hq2
    show clampQ MIN_INTERVAL_MINUTES MAX_INTERVAL_MINUTES
        ((jsRound (q * 10) : ℚ) / 10) = (jsRound (q * 10) : ℚ) / 10
    have hk1 : 1 ≤ jsRound (q * 10) := by
      unfold jsRound
      rw [Int.le_floor]
      push_cast
      linarith
    have hk2 : jsRound (q * 10) ≤ 1800 := by
      unfold jsRound
      have hle : q * 10 + 1 / 2 ≤ 1800 + 1 / 2 := by linarith
      have hf := Int.floor_le_floor hle
      have h1800 : (⌊(1800 + 1 / 2 : ℚ)⌋ : ℤ) = 1800 := by norm_num
      omega
    rw [clampQ_interval_shape, min_eq_right hk2, max_eq_right hk1]

/-- C2 witness: `45` is in range and maps to its one-decimal rounding;
`0.05` normalizes to `0.1`; `500` normalizes to `180`. -/
theorem interval_clamp_round_witness :
    (normalizeSettings (intervalInput (.finite 45))).intervalMinutes =
      (jsRound ((45 : ℚ) * 10) : ℚ) / 10 ∧
    (normalizeSettings (intervalInput (.finite (1 / 20)))).intervalMinutes =
      1 / 10 ∧
    (normalizeSettings (intervalInput (.finite 500))).intervalMinutes =
      180 := by
  refine ⟨(interval_clamp_round (intervalInput (.finite 45)) 45 rfl).2
    (by norm_num [MIN_INTERVAL_MINUTES]) (by norm_num [MAX_INTERVAL_MINUTES]),
    ?_, ?_⟩
  · show clampQ MIN_INTERVAL_MINUTES MAX_INTERVAL_MINUTES
        ((jsRound ((1 : ℚ) / 20 * 10) : ℚ) / 10) = 1 / 10
    unfold jsRound
    rw [show ((1 : ℚ) / 20 * 10 + 1 / 2) = 1 by norm_num, Int.floor_one,
      clampQ_eq]
    norm_num [MIN_INTERVAL_MINUTES, MAX_INTERVAL_MINUTES]
  · show clampQ MIN_INTERVAL_MINUTES MAX_INTERVAL_MINUTES
        ((jsRound ((500 : ℚ) * 10) : ℚ) / 10) = 180
    unfold jsRound
    rw [clampQ_eq]
    norm_num [MIN_INTERVAL_MINUTES, MAX_INTERVAL_MINUTES]

/-! ## C7: icon data-URL normalization -/

/-- C7 counterexample: for the input `""` the normalized icon equals
the trimmed input (both are empty) even though the trimmed input does
not start with `"data:image/"`, so "the normalized value is the
trimmed input if and only if it has the image prefix and fits the cap"
fails in the only-if direction. -/
theorem icon_iff_counterexample :
    ¬ (((normalizeSettings (iconInput "")).notificationIconDataUrl =
          jsTrim "") ↔
       (jsStartsWith "data:image/" (jsTrim "") = true ∧
        jsLength (jsTrim "") ≤ MAX_ICON_DATA_URL_LENGTH)) := by
  decide

/-- C7 (amended): for a string icon input, the normalized icon is the
trimmed input when the trimmed input starts with `"data:image/"` and
is at most 2,000,000 characters long, and is `""` otherwise; the
biconditional between "kept" and the condition holds whenever the
trimmed input is non-empty (when it is empty the two cases
coincide). -/
theorem icon_normalization_amended (x : RawInput) (s : String)
    (h : (fieldsOf x).notificationIconDataUrl = .strV s) :
    ((jsStartsWith "data:image/" (jsTrim s) = true ∧
        jsLength (jsTrim s) ≤ MAX_ICON_DATA_URL_LENGTH) →
      (normalizeSettings x).notificationIconDataUrl = jsTrim s) ∧
    (¬ (jsStartsWith "data:image/" (jsTrim s) = true ∧
        jsLength (jsTrim s) ≤ MAX_ICON_DATA_URL_LENGTH) →
      (normalizeSettings x).notificationIconDataUrl = "") ∧
    (jsTrim s ≠ "" →
      ((normalizeSettings x).notificationIconDataUrl = jsTrim s ↔
        (jsStartsWith "data:image/" (jsTrim s) = true ∧
         jsLength (jsTrim s) ≤ MAX_ICON_DATA_URL_LENGTH))) := by
  have hicon : (normalizeSettings x).notificationIconDataUrl =
      safeIconOf (.strV s) := by
    rw [normalizeSettings_icon, h]
  have hval : safeIconOf (.strV s) =
      if jsStartsWith "data:image/" (jsTrim s) &&
          decide (jsLength (jsTrim s) ≤ MAX_ICON_DATA_URL_LENGTH) then
        jsTrim s
      else "" := rfl
  have hcond : ((jsStartsWith "data:image/" (jsTrim s) &&
      decide (jsLength (jsTrim s) ≤ MAX_ICON_DATA_URL_LENGTH)) = true) ↔
      (jsStartsWith "data:image/" (jsTrim s) = true ∧
       jsLength (jsTrim s) ≤ MAX_ICON_DATA_URL_LENGTH) := by
    simp [Bool.and_eq_true, decide_eq_true_eq]
  by_cases hB : (jsStartsWith "data:image/" (jsTrim s) &&
      decide (jsLength (jsTrim s) ≤ MAX_ICON_DATA_URL_LENGTH)) = true
  · have hC := hcond.mp hB
    have hres : (normalizeSettings x).notificationIconDataUrl = jsTrim s := by
      rw [hicon, hval, if_pos hB]
    exact ⟨fun _ => hres, fun hn => absurd hC hn,
      fun _ => iff_of_true hres hC⟩
  · have hC : ¬ (jsStartsWith "data:image/" (jsTrim s) = true ∧
        jsLength (jsTrim s) ≤ MAX_ICON_DATA_URL_LENGTH) :=
      fun hc => hB (hcond.mpr hc)
    have hres : (normalizeSettings x).notificationIconDataUrl = "" := by
      rw [hicon, hval, if_neg hB]
    refine ⟨fun hc => absurd hc hC, fun _ => hres, fun hne => ?_⟩
    rw [hres]
    constructor
    · intro he
      exact absurd he.symm hne
    · intro hc
      exact absurd hc hC

/-- C7 witness: a text data URI is rejected to `""`; a padded image
data URI is kept in trimmed form. -/
theorem icon_normalization_amended_witness :
    (normalizeSettings
        (iconInput "data:text/plain;base64,AA")).notificationIconDataUrl =
      "" ∧
    (normalizeSettings
        (iconInput " data:image/png;base64,AA ")).notificationIconDataUrl =
      jsTrim " data:image/png;base64,AA " :=
  ⟨(icon_normalization_amended (iconInput "data:text/plain;base64,AA")
      "data:text/plain;base64,AA" rfl).2.1 (by decide),
   (icon_normalization_amended (iconInput " data:image/png;base64,AA ")
      " data:image/png;base64,AA " rfl).1 (by decide)⟩

/-! ## Scheduler lemmas -/

/-- Closed-form evaluation of `syncAlarm`. -/
theorem syncAlarm_eval (s : ReminderSettings) (ts : TimerState) :
    syncAlarm s ts =
      if s.enabled = false then { coarseAlarm := none, fineTimer := none }
      else if s.intervalMinutes < 1 then
        { coarseAlarm := none,
          fineTimer := some (s.intervalMinutes * 60000) }
      else
        { coarseAlarm := some (s.intervalMinutes, s.intervalMinutes),
          fineTimer := none } := by
  obtain ⟨tc, tf⟩ := ts
  unfold syncAlarm syncAlarmTrace applyActions
  by_cases he : s.enabled = false <;>
    by_cases hi : s.intervalMinutes < 1 <;>
    cases tf <;>
    simp [he, hi, applyAction]

theorem armedCount_syncAlarm_le (s : ReminderSettings) (ts : TimerState) :
    armedCount (syncAlarm s ts) ≤ 1 := by
  rw [syncAlarm_eval]
  by_cases he : s.enabled = false <;>
    by_cases hi : s.intervalMinutes < 1 <;>
    simp [he, hi, armedCount]

theorem armedCount_foldl_syncAlarm_le (l : List ReminderSettings) :
    ∀ t : TimerState, armedCount t ≤ 1 →
      armedCount (l.foldl (fun t u => syncAlarm u t) t) ≤ 1 := by
  induction l with
  | nil => exact fun t h => h
  | cons u us ih =>
    intro t _
    exact ih (syncAlarm u t) (armedCount_syncAlarm_le u t)

/-! ## C3: scheduler end states -/

/-- C3: after `resync`, disabled settings leave both timers disarmed;
an enabled sub-minute interval arms only the fine software timer with
period `intervalMinutes * 60000` ms; an enabled interval of at least a
minute arms only the coarse platform alarm with delay and period both
equal to `intervalMinutes`. -/
theorem syncAlarm_states (s : ReminderSettings) (ts : TimerState) :
    (s.enabled = false →
      syncAlarm s ts = { coarseAlarm := none, fineTimer := none }) ∧
    (s.enabled = true → s.intervalMinutes < 1 →
      syncAlarm s ts =
        { coarseAlarm := none,
          fineTimer := some (s.intervalMinutes * 60000) }) ∧
    (s.enabled = true → 1 ≤ s.intervalMinutes →
      syncAlarm s ts =
        { coarseAlarm := some (s.intervalMinutes, s.intervalMinutes),
          fineTimer := none }) := by
  refine ⟨fun he => ?_, fun he hi => ?_, fun he hi => ?_⟩
  · rw [syncAlarm_eval, if_pos he]
  · rw [syncAlarm_eval, if_neg (by rw [he]; simp), if_pos hi]
  · rw [syncAlarm_eval, if_neg (by rw [he]; simp),
      if_neg (not_lt.mpr hi)]

/-- C3 witness: the three cases at concrete settings and timer
states. -/
theorem syncAlarm_states_witness :
    syncAlarm { defaultSettings with enabled := false }
        { coarseAlarm := some (3, 3), fineTimer := some 5 } =
      { coarseAlarm := none, fineTimer := none } ∧
    syncAlarm { defaultSettings with intervalMinutes := 1 / 2 }
        { coarseAlarm := some (3, 3), fineTimer := none } =
      { coarseAlarm := none, fineTimer := some ((1 / 2 : ℚ) * 60000) } ∧
    syncAlarm defaultSettings { coarseAlarm := none, fineTimer := some 5 } =
      { coarseAlarm := some (45, 45), fineTimer := none } :=
  ⟨(syncAlarm_states _ _).1 rfl,
   (syncAlarm_states _ _).2.1 rfl (by norm_num),
   (syncAlarm_states _ _).2.2 rfl (by norm_num [defaultSettings])⟩

/-! ## C5: disarm-before-arm and the single-stream invariant -/

/-- C5: every `resync` trace is a block of clear operations — after
which both timers are disarmed — followed by at most one arming
operation; hence after a `resync`, and after any further sequence of
`resync`s, at most one timer is armed. -/
theorem syncAlarm_disarm_before_arm (s : ReminderSettings)
    (ts : TimerState) :
    (∃ pre post, syncAlarmTrace s ts = pre ++ post ∧
      pre.all TimerAction.isClear = true ∧
      applyActions ts pre = { coarseAlarm := none, fineTimer := none } ∧
      post.all TimerAction.isArm = true ∧
      post.length ≤ 1) ∧
    armedCount (syncAlarm s ts) ≤ 1 ∧
    (∀ (rest : List ReminderSettings) (ts₀ : TimerState),
      armedCount
        (rest.foldl (fun t u => syncAlarm u t) (syncAlarm s ts₀)) ≤ 1) := by
  refine ⟨?_, armedCount_syncAlarm_le s ts, fun rest ts₀ =>
    armedCount_foldl_syncAlarm_le rest _ (armedCount_syncAlarm_le s ts₀)⟩
  refine ⟨[TimerAction.clearCoarse] ++
      (if ts.fineTimer.isSome then [TimerAction.clearFine] else []),
    (if s.enabled = false then []
     else if s.intervalMinutes < 1 then
       [TimerAction.armFine (s.intervalMinutes * 60000)]
     else
       [TimerAction.armCoarse s.intervalMinutes s.intervalMinutes]),
    ?_, ?_, ?_, ?_, ?_⟩
  · unfold syncAlarmTrace
    rw [List.append_assoc]
  · cases hf : ts.fineTimer.isSome <;>
      simp [TimerAction.isClear]
  · obtain ⟨tc, tf⟩ := ts
    cases tf <;> simp [applyActions, applyAction]
  · by_cases he : s.enabled = false <;>
      by_cases hi : s.intervalMinutes < 1 <;>
      simp [he, hi, TimerAction.isArm]
  · by_cases he : s.enabled = false <;>
      by_cases hi : s.intervalMinutes < 1 <;>
      simp [he, hi]

/-! ## C6: permission denied -/

/-- C6: when the permission check answers `false`, `show()` returns
`false`, makes no creation attempt, creates no notification and
schedules no auto-dismiss timer. -/
theorem show_no_permission (env : NotifEnv) (s : ReminderSettings)
    (h : env.permission = false) :
    showNotification env s =
      { result := some false, attempts := [], createdCount := 0,
        dismissScheduled := false } := by
  unfold showNotification
  rw [if_pos h]

/-- C6 witness: the denied-permission outcome at concrete inputs. -/
theorem show_no_permission_witness :
    showNotification
        { permission := false, customCreateOk := true,
          defaultCreateOk := true } defaultSettings =
      { result := some false, attempts := [], createdCount := 0,
        dismissScheduled := false } :=
  show_no_permission _ _ rfl

/-! ## C4: icon fallback chain of `show()` -/

/-- C4 counterexample: with permission granted, a persisted custom
icon and both creation calls failing, `show()` ends with a rejected
promise (the second, default-icon creation is not guarded), so an
exception propagates instead of `false` being returned. -/
theorem show_throws_counterexample :
    (showNotification
        { permission := true, customCreateOk := false,
          defaultCreateOk := false } iconSettings).result = none ∧
    (showNotification
        { permission := true, customCreateOk := false,
          defaultCreateOk := false } iconSettings).result ≠ some false := by
  constructor <;> decide

/-- C4 (amended): with permission granted, a failing custom-icon
creation is retried exactly once with the bundled default icon, and
`show()` returns `true` exactly when one of its attempts succeeds;
but it never returns `false` from the creation path: when the
default-icon creation runs and fails, the exception escapes `show()`
(only the custom-icon attempt is guarded). -/
theorem show_retry_amended (env : NotifEnv) (s : ReminderSettings)
    (hp : env.permission = true) :
    (s.notificationIconDataUrl ≠ "" → env.customCreateOk = false →
      (showNotification env s).attempts =
        [IconChoice.customIcon, IconChoice.defaultIcon]) ∧
    (s.notificationIconDataUrl ≠ "" → env.customCreateOk = true →
      (showNotification env s).attempts = [IconChoice.customIcon]) ∧
    (s.notificationIconDataUrl = "" →
      (showNotification env s).attempts = [IconChoice.defaultIcon]) ∧
    ((showNotification env s).result = some true ↔
      (showNotification env s).createdCount = 1) ∧
    (showNotification env s).result ≠ some false ∧
    ((showNotification env s).result = none ↔
      (env.defaultCreateOk = false ∧
        (s.notificationIconDataUrl = "" ∨ env.customCreateOk = false))) := by
  obtain ⟨p, co, dk⟩ := env
  cases hp
  by_cases hicon : s.notificationIconDataUrl = "" <;>
    cases co <;> cases dk <;>
    simp [showNotification, hicon]

/-- C4 witness: permission granted, custom icon present and rejected,
default icon accepted: one retry, delivered. -/
theorem show_retry_amended_witness :
    (showNotification
        { permission := true, customCreateOk := false,
          defaultCreateOk := true } iconSettings).attempts =
      [IconChoice.customIcon, IconChoice.defaultIcon] ∧
    ((showNotification
        { permission := true, customCreateOk := false,
          defaultCreateOk := true } iconSettings).result = some true ↔
      (showNotification
        { permission := true, customCreateOk := false,
          defaultCreateOk := true } iconSettings).createdCount = 1) :=
  ⟨(show_retry_amended _ _ rfl).1 (by decide) rfl,
   (show_retry_amended _ _ rfl).2.2.2.1⟩

/-! ## C8: three-tier icon encoding fallback -/

/-- C8: with a decoded image and an available context, the pipeline
returns the PNG encoding when it fits the 2,000,000-character cap,
otherwise the quality-0.9 JPEG when that fits, otherwise the
quality-0.75 JPEG unconditionally, with no cap check on the final
tier. -/
theorem fileToSquareDataUrl_tiers (env : CanvasEnv) (wh : ℕ × ℕ)
    (himg : env.imageLoad = some wh) (hctx : env.ctxAvailable = true) :
    (jsLength env.pngDataUrl ≤ MAX_ICON_DATA_URL_LENGTH →
      fileToSquareDataUrl env = .ok env.pngDataUrl) ∧
    (¬ jsLength env.pngDataUrl ≤ MAX_ICON_DATA_URL_LENGTH →
      jsLength env.jpeg90DataUrl ≤ MAX_ICON_DATA_URL_LENGTH →
      fileToSquareDataUrl env = .ok env.jpeg90DataUrl) ∧
    (¬ jsLength env.pngDataUrl ≤ MAX_ICON_DATA_URL_LENGTH →
      ¬ jsLength env.jpeg90DataUrl ≤ MAX_ICON_DATA_URL_LENGTH →
      fileToSquareDataUrl env = .ok env.jpeg75DataUrl) := by
  obtain ⟨img, ctx, p, j9, j7⟩ := env
  cases himg
  cases hctx
  have heval : fileToSquareDataUrl
      { imageLoad := some wh, ctxAvailable := true, pngDataUrl := p,
        jpeg90DataUrl := j9, jpeg75DataUrl := j7 } =
      if jsLength p ≤ MAX_ICON_DATA_URL_LENGTH then Except.ok p
      else if jsLength j9 ≤ MAX_ICON_DATA_URL_LENGTH then Except.ok j9
      else Except.ok j7 := rfl
  refine ⟨fun h1 => ?_, fun h1 h2 => ?_, fun h1 h2 => ?_⟩
  · dsimp only at h1 ⊢
    rw [heval, if_pos h1]
  · dsimp only at h1 h2 ⊢
    rw [heval, if_neg h1, if_pos h2]
  · dsimp only at h1 h2 ⊢
    rw [heval, if_neg h1, if_neg h2]

theorem length_overCapString :
    jsLength overCapString = MAX_ICON_DATA_URL_LENGTH + 1 :=
  List.length_replicate _ _

/-- C8 witness: a PNG one character over the cap falls back to the
fitting quality-0.9 JPEG, which is returned. -/
theorem fileToSquareDataUrl_tiers_witness :
    fileToSquareDataUrl
        { imageLoad := some (128, 128), ctxAvailable := true,
          pngDataUrl := overCapString,
          jpeg90DataUrl := "data:image/jpeg;base64,AA",
          jpeg75DataUrl := "data:image/jpeg;base64,BB" } =
      .ok "data:image/jpeg;base64,AA" :=
  (fileToSquareDataUrl_tiers _ (128, 128) rfl rfl).2.1
    (by dsimp only; rw [length_overCapString]; omega)
    (by decide)

end Sitless
